import Mathlib

/-!
Verification of the resilient storage access layer of the Gdrive-management
application: TTL cache, retry executor, query builder, drive client
(list/search/move/resolve-link) and the dual-backend data manager.
Each definition is a shallow embedding of the corresponding Python code.
-/

/-- A single quote character, used when assembling query strings. -/
def quoteC : Char := Char.ofNat 39

/-- The single-quote as a one-character string. -/
def quoteS : String := String.mk [quoteC]

/-- Substring test on character lists: does `hay` contain `needle`
as a contiguous run?  Mirrors the Python expression `needle in hay`. -/
def hasSub (needle : List Char) : List Char → Bool
  | [] => needle.isEmpty
  | c :: t => needle.isPrefixOf (c :: t) || hasSub needle t

/-- `strContains hay pat` mirrors Python `pat in hay` on strings. -/
def strContains (hay pat : String) : Bool :=
  hasSub pat.toList hay.toList

/-- The in-memory cache of `CachedService`: a Python dict mapping a string
key to a pair of cached data and its insertion timestamp. -/
def Cache (α : Type) : Type := String → Option (α × Nat)

/-- The empty cache. -/
def Cache.emptyC {α : Type} : Cache α := fun _ => none

/-- `CachedService._get_cached`: return the entry if it is fresh
(`now - timestamp < ttl`), otherwise delete the stale entry and
return the absent sentinel.  Returns the value and the updated cache. -/
def getCached {α : Type} (ttl now : Nat) (c : Cache α) (key : String) :
    Option α × Cache α :=
  match c key with
  | some pr =>
      if now - pr.2 < ttl then (some pr.1, c)
      else (none, fun k => if k == key then none else c k)
  | none => (none, c)

/-- `CachedService._set_cache`: insert or overwrite with the current time. -/
def setCache {α : Type} (now : Nat) (c : Cache α) (key : String) (data : α) :
    Cache α :=
  fun k => if k == key then some (data, now) else c k

/-- `CachedService._invalidate_cache`: with a truthy pattern, remove every
key containing the pattern as a substring; with `None` (or the falsy empty
string) clear the whole cache. -/
def invalidateCache {α : Type} (c : Cache α) (pattern : Option String) :
    Cache α :=
  match pattern with
  | some p =>
      if p == "" then fun _ => none
      else fun k => if strContains k p then none else c k
  | none => fun _ => none

/-- `RetryableMixin._retry_request` loop body, starting at a given attempt
index.  `op i` is the outcome of invoking the wrapped operation on attempt
`i` (`none` models a raised exception).  Returns the final result, the
number of invocations of the operation, and the total seconds slept. -/
def retryGo {α : Type} (op : Nat → Option α) (delay maxRetries attempt : Nat) :
    Option α × Nat × Nat :=
  if h : attempt < maxRetries then
    match op attempt with
    | some v => (some v, 1, 0)
    | none =>
        if attempt < maxRetries - 1 then
          let r := retryGo op delay maxRetries (attempt + 1)
          (r.1, r.2.1 + 1, r.2.2 + delay * 2 ^ attempt)
        else (none, 1, 0)
  else (none, 0, 0)
termination_by maxRetries - attempt

/-- `RetryableMixin._retry_request`: run the loop from attempt 0. -/
def retryRequest {α : Type} (op : Nat → Option α) (delay maxRetries : Nat) :
    Option α × Nat × Nat :=
  retryGo op delay maxRetries 0

/-- One step of Python `str.replace` on quotes: a single quote becomes
backslash-quote, every other character stays. -/
def escQuote (c : Char) : List Char :=
  if c == quoteC then ['\\', quoteC] else [c]

/-- `name.replace(chr(39), backslash + chr(39))` as used by
`DriveQueryBuilder.name_equals` and `name_contains`. -/
def escapeQuotes (s : String) : String :=
  String.mk ((s.toList.map escQuote).flatten)

/-- `DriveQueryBuilder.in_parents`: append the parent-containment clause. -/
def qInParents (conds : List String) (parentId : String) : List String :=
  conds ++ [quoteS ++ parentId ++ quoteS ++ " in parents"]

/-- `DriveQueryBuilder.not_trashed`. -/
def qNotTrashed (conds : List String) : List String :=
  conds ++ ["trashed=false"]

/-- `DriveQueryBuilder.name_equals`, with quote escaping. -/
def qNameEquals (conds : List String) (name : String) : List String :=
  conds ++ ["name = " ++ quoteS ++ escapeQuotes name ++ quoteS]

/-- `DriveQueryBuilder.name_contains`, with quote escaping. -/
def qNameContains (conds : List String) (query : String) : List String :=
  conds ++ ["name contains " ++ quoteS ++ escapeQuotes query ++ quoteS]

/-- `DriveQueryBuilder.mime_type`. -/
def qMimeType (conds : List String) (m : String) : List String :=
  conds ++ ["mimeType=" ++ quoteS ++ m ++ quoteS]

/-- `DriveQueryBuilder.build`: join accumulated clauses with " and ",
or return the none sentinel when no clause was added. -/
def qBuild (conds : List String) : Option String :=
  if conds.isEmpty then none else some (String.intercalate " and " conds)

/-- The free text of the C8 scenario: a-quote-s-space-file. -/
def c8Input : String := "a" ++ quoteS ++ "s file"

/-- The query string produced in the C8 scenario. -/
def c8Expected : String :=
  quoteS ++ "F" ++ quoteS ++ " in parents and trashed=false and name contains "
    ++ quoteS ++ "a" ++ "\\" ++ quoteS ++ "s file" ++ quoteS

/-- Character class `[a-zA-Z0-9_-]` of the ID-extraction regexes. -/
def idChar (c : Char) : Bool :=
  c.isAlphanum || c == '_' || c == '-'

/-- `re.search` for a pattern of the form `lit([a-zA-Z0-9_-]+)`: find the
leftmost occurrence of the literal that is followed by at least one ID
character, and capture the maximal run of ID characters after it. -/
def searchLit (lit : List Char) : List Char → Option (List Char)
  | [] => none
  | c :: t =>
      if lit.isPrefixOf (c :: t) then
        let cap := ((c :: t).drop lit.length).takeWhile idChar
        if cap.isEmpty then searchLit lit t else some cap
      else searchLit lit t

/-- `re.search` for the third pattern `[?&]id=([a-zA-Z0-9_-]+)`. -/
def searchIdParam : List Char → Option (List Char)
  | [] => none
  | c :: t =>
      if (c == '?' || c == '&') && ("id=".toList.isPrefixOf t) then
        let cap := (t.drop 3).takeWhile idChar
        if cap.isEmpty then searchIdParam t else some cap
      else searchIdParam t

/-- The literal of the folder-link pattern. -/
def foldersLit : List Char := "/folders/".toList

/-- The literal of the file-link pattern. -/
def fileLit : List Char := "/file/d/".toList

/-- `StringUtils.extract_id_from_url` with the default patterns: try the
three URL patterns in order; failing all, accept a bare token longer than
20 characters containing no slash; otherwise return the none sentinel. -/
def extractIdFromUrl (url : String) : Option String :=
  let cs := url.toList
  match searchLit foldersLit cs with
  | some g => some (String.mk g)
  | none =>
      match searchLit fileLit cs with
      | some g => some (String.mk g)
      | none =>
          match searchIdParam cs with
          | some g => some (String.mk g)
          | none =>
              if 20 < url.length && !cs.contains '/' then some url else none

/-- Metadata of a remote file as the client sees it: the fields of the
Drive `files` resource the code reads. -/
structure FileMeta where
  id : String
  name : String
  mimeType : String
  parents : List String
deriving DecidableEq

/-- `DriveService.resolve_drive_link`: extract an id from the link, then
fetch its metadata (`getInfo` is the outcome of `get_file_info`); return
the pair of nones when extraction or the metadata fetch fails. -/
def resolveDriveLink (getInfo : String → Option FileMeta) (link : String) :
    Option String × Option FileMeta :=
  match extractIdFromUrl link with
  | none => (none, none)
  | some fid =>
      match getInfo fid with
      | none => (none, none)
      | some m => (some fid, some m)

/-- The folder link of the C9 scenario. -/
def c9FolderLink : String := "https://storage.example/folders/ABC123"

/-- Rendering of an optional value inside a Python f-string:
`None` prints as the literal text "None". -/
def optStr : Option String → String
  | none => "None"
  | some s => s

/-- The cache key of `DriveService.list_files`:
`files_{folder_id}_{page_size}_{page_token}`. -/
def listKey (folderId : String) (pageSize : Nat) (pageToken : Option String) :
    String :=
  "files_" ++ folderId ++ "_" ++ toString pageSize ++ "_" ++ optStr pageToken

/-- The cache key of `DriveService.search_files`:
`search_{query_text}_{folder_id}`. -/
def searchKey (queryText : String) (folderId : Option String) : String :=
  "search_" ++ queryText ++ "_" ++ optStr folderId

/-- What the shared service cache stores: a list page with its
continuation token, a single file's metadata, or a search result. -/
inductive Payload where
  | page : List FileMeta → Option String → Payload
  | meta : FileMeta → Payload
  | found : List FileMeta → Payload
deriving DecidableEq

/-- `DriveService.list_files`: check the cache when `use_cache` is set,
otherwise issue the retried list query (its outcome is `remote`; `none`
models exhausted retries), cache a successful page and return it, or
return the none sentinel with the cache untouched. -/
def listFiles (ttl now : Nat) (c : Cache Payload) (folderId : String)
    (pageSize : Nat) (pageToken : Option String) (useCache : Bool)
    (remote : Option (List FileMeta × Option String)) :
    Option (List FileMeta × Option String) × Cache Payload :=
  let key := listKey folderId pageSize pageToken
  let hit := if useCache then getCached ttl now c key else (none, c)
  match hit.1 with
  | some (Payload.page fs tok) => (some (fs, tok), hit.2)
  | _ =>
      match remote with
      | some (fs, tok) =>
          (some (fs, tok), setCache now hit.2 key (Payload.page fs tok))
      | none => (none, hit.2)

/-- `DriveService.search_files`: like `list_files` but returns the `files`
list of the result, an empty list when the retried request produced the
no-result sentinel, and only caches non-empty results when `use_cache`. -/
def searchFiles (ttl now : Nat) (c : Cache Payload) (queryText : String)
    (folderId : Option String) (useCache : Bool)
    (remote : Option (List FileMeta)) : List FileMeta × Cache Payload :=
  let key := searchKey queryText folderId
  let hit := if useCache then getCached ttl now c key else (none, c)
  match hit.1 with
  | some (Payload.found fs) => (fs, hit.2)
  | _ =>
      let files := match remote with
        | some fs => fs
        | none => []
      let c2 := if useCache && !files.isEmpty
        then setCache now hit.2 key (Payload.found files)
        else hit.2
      (files, c2)

/-- The remote backend as the move path sees it: the files with their
parent lists. -/
def srvGet (srv : List FileMeta) (fid : String) : Option FileMeta :=
  srv.find? (fun f => f.id == fid)

/-- The effect of the Drive `update(addParents, removeParents)` call made
by `move_file`: every previous parent is removed and the new parent added,
so the file's parents become exactly the new parent. -/
def srvSetParents (srv : List FileMeta) (fid : String) (ps : List String) :
    List FileMeta :=
  srv.map (fun f => if f.id == fid then { f with parents := ps } else f)

/-- `DriveService.move_file`: under retry, read the file's current parents
and issue the add/remove-parents update (`netOk` models whether the
retried round trip succeeds; a missing file makes every attempt raise).
On success the code re-reads the file's parents — now already the
post-move parents — invalidates the cache by each of them and by the new
parent, and returns the updated file. -/
def moveFile (ttl now : Nat) (c : Cache Payload) (srv : List FileMeta)
    (fileId newParentId : String) (netOk : Bool) :
    Option FileMeta × Cache Payload × List FileMeta :=
  let attempt : Option (FileMeta × List FileMeta) :=
    if netOk then
      match srvGet srv fileId with
      | some _ =>
          let srv2 := srvSetParents srv fileId [newParentId]
          match srvGet srv2 fileId with
          | some f2 => some (f2, srv2)
          | none => none
      | none => none
    else none
  match attempt with
  | some (updated, srv2) =>
      let parentsNow := match srvGet srv2 fileId with
        | some f => f.parents
        | none => []
      let c1 := parentsNow.foldl (fun acc p => invalidateCache acc (some p)) c
      let c2 := invalidateCache c1 (some newParentId)
      (some updated, c2, srv2)
  | none => (none, c, srv)

/-- The file moved in the C2 scenario, initially inside folder A. -/
def c2FileX : FileMeta := ⟨"X1", "x.txt", "text/plain", ["A"]⟩

/-- The file after the move, inside folder B. -/
def c2FileXMoved : FileMeta := ⟨"X1", "x.txt", "text/plain", ["B"]⟩

/-- The pre-move cached list page of folder A (contains X). -/
def c2PageA : Payload := Payload.page [c2FileX] none

/-- A marker entry standing for the stale pre-move page of folder B. -/
def c2OldB : FileMeta := ⟨"OLD", "old.txt", "text/plain", ["B"]⟩

/-- The pre-move cached list page of folder B. -/
def c2PageB : Payload := Payload.page [c2OldB] none

/-- A cache holding fresh pre-move list pages for folders A and B. -/
def c2Cache : Cache Payload :=
  setCache 0
    (setCache 0 Cache.emptyC (listKey "A" 100 none) c2PageA)
    (listKey "B" 100 none) c2PageB

/-- The state of a `DataManager` for one collection: whether a drive
service instance is present, the configured root-folder id, the cached
remote-file-id binding (`assignments_drive_id` etc.), and the parsed
content of the local JSON file (`none` when absent or unparsable). -/
structure DMState (α : Type) where
  hasDrive : Bool
  lmsRootId : Option String
  binding : Option String
  localData : Option α

/-- Modelled from the spec: `utils.common.load_json_file` is imported by
`data_manager.py` but its module is not among the given sources; per the
spec, reading the local JSON file yields its parsed content, or the
default when the file is absent or unparsable. -/
def load_json_file {α : Type} (localData : Option α) (default : α) : α :=
  localData.getD default

/-- Modelled from the spec: `utils.common.save_json_file` is imported by
`data_manager.py` but its module is not among the given sources; per the
spec, saving writes the documents to the local JSON file, so a later read
parses back exactly those documents. -/
def save_json_file {α : Type} (d : α) : Option α :=
  some d

/-- Remote-side outcomes seen by the `DataManager` during a load.
`listRoot` is the result of `list_files` on the root folder with the
cache bypassed (`none` when retries were exhausted or an exception was
caught); `download` is, per file id, the text content obtained from the
remote file; `parse` is the outcome of `json.loads` on that text.

Modelled from the spec: the `download_file_content` method invoked by
`data_manager.py` is not among the given sources; per the spec
(`downloadContent`), it returns the decoded text of the remote file or
the none sentinel on any failure. -/
structure RemoteEnv (α : Type) where
  listRoot : Option (List FileMeta)
  download : String → Option String
  parse : String → Option α

/-- The Drive folder MIME type. -/
def folderMime : String := "application/vnd.google-apps.folder"

/-- `DataManager._get_drive_file_id`: list the root folder without cache
and return the id of the first non-folder file with the wanted name; any
failure yields the none sentinel. -/
def getDriveFileId (filename : String) (listRoot : Option (List FileMeta)) :
    Option String :=
  match listRoot with
  | none => none
  | some files =>
      match files.find? (fun f => f.name == filename && !(f.mimeType == folderMime)) with
      | some f => some f.id
      | none => none

/-- The remote file id `_load_from_drive_or_local` works with: the cached
binding when present, otherwise the result of the name lookup in the
root folder. -/
def resolveFid {α : Type} (dm : DMState α) (env : RemoteEnv α)
    (filename : String) : Option String :=
  match dm.binding with
  | some i => some i
  | none => getDriveFileId filename env.listRoot

/-- `DataManager._load_from_drive_or_local`: when a drive service and a
root id are configured, resolve (or reuse) the remote file id, remember
it, download and parse the content, and return the parsed documents; on
any failure (no file found, empty or failed download, parse error) fall
through to the local JSON file, whose absence yields the default. -/
def loadDM {α : Type} (dm : DMState α) (env : RemoteEnv α)
    (filename : String) (default : α) : α × DMState α :=
  if dm.hasDrive && dm.lmsRootId.isSome then
    let fid := resolveFid dm env filename
    let dm2 := { dm with binding := fid }
    let res :=
      match fid with
      | some i =>
          match env.download i with
          | some c =>
              if c == "" then load_json_file dm.localData default
              else
                match env.parse c with
                | some d => d
                | none => load_json_file dm.localData default
          | none => load_json_file dm.localData default
      | none => load_json_file dm.localData default
    (res, dm2)
  else (load_json_file dm.localData default, dm)

/-- The remote mirror as the save path sees it: the files in the root
folder, plus a counter from which the backend assigns fresh ids. -/
structure RServer where
  files : List FileMeta
  counter : Nat

/-- The effect of a successful `upload_file` into the root folder: the
backend creates a file with a fresh id and the given name and returns its
metadata. -/
def uploadNew (srv : RServer) (root fn : String) : FileMeta × RServer :=
  let nid := "gen" ++ toString srv.counter
  let m : FileMeta := ⟨nid, fn, "application/json", [root]⟩
  (m, ⟨srv.files ++ [m], srv.counter + 1⟩)

/-- `DataManager._save_to_local_and_drive`: write the local JSON file
first, always.  Then, when a drive service and root id are configured:
if a remote id is bound, attempt `update_file` — a result carrying a
usable id (`updOk` and the bound file still exists remotely) keeps the
binding; otherwise the binding is cleared and the documents are uploaded
as a new file (`upOk` models upload success), rebinding the returned id.
With no binding, upload directly and bind the returned id.  Remote
failures never touch the local write. -/
def saveDM {α : Type} (dm : DMState α) (srv : RServer) (fn : String)
    (d : α) (updOk upOk : Bool) : DMState α × RServer :=
  let dm1 := { dm with localData := save_json_file d }
  if dm1.hasDrive && dm1.lmsRootId.isSome then
    match dm1.lmsRootId with
    | some root =>
        match dm1.binding with
        | some i =>
            if updOk && srv.files.any (fun f => f.id == i) then (dm1, srv)
            else
              if upOk then
                let pr := uploadNew srv root fn
                ({ dm1 with binding := some pr.1.id }, pr.2)
              else ({ dm1 with binding := none }, srv)
        | none =>
            if upOk then
              let pr := uploadNew srv root fn
              ({ dm1 with binding := some pr.1.id }, pr.2)
            else (dm1, srv)
    | none => (dm1, srv)
  else (dm1, srv)

/-- The data-manager state of the C1 witness: drive configured, binding
already cached. -/
def dmC1 : DMState (List Nat) :=
  ⟨true, some "root", some "F1", some [9]⟩

/-- The remote environment of the C1 witness. -/
def envC1 : RemoteEnv (List Nat) :=
  ⟨some [], fun i => if i == "F1" then some "ok" else none,
   fun c => if c == "ok" then some [3] else none⟩

/-- The store of the C4 witness: no remote configured. -/
def dmC4 : DMState Nat := ⟨false, none, none, none⟩

/-- The remote environment of the C4 witness: everything fails. -/
def envC4 : RemoteEnv Nat := ⟨none, fun _ => none, fun _ => none⟩

/-- The store of the C5 witness: remote configured, stale binding. -/
def dmC5 : DMState Nat := ⟨true, some "R", some "dead", none⟩

theorem hasSub_nil (l : List Char) : hasSub [] l = true := by
  cases l <;> simp [hasSub, List.isPrefixOf]

theorem geomSumTwoPow (d : Nat) : ∀ n, ∑ i in Finset.range n, d * 2 ^ i = d * (2 ^ n - 1) := by
  intro n
  induction n with
  | zero => simp
  | succ n ih =>
      rw [Finset.sum_range_succ, ih]
      have hx : 1 ≤ 2 ^ n := Nat.one_le_two_pow
      have hx2 : 1 ≤ 2 ^ (n + 1) := Nat.one_le_two_pow
      zify [hx, hx2]
      ring

theorem retryGo_allFail {α : Type} (op : Nat → Option α) (delay : Nat) :
    ∀ (k attempt maxR : Nat), maxR = attempt + k → 1 ≤ k →
      (∀ i, i < maxR → op i = none) →
      retryGo op delay maxR attempt =
        (none, k, delay * 2 ^ attempt * (2 ^ (k - 1) - 1)) := by
  intro k
  induction k with
  | zero => intro attempt maxR _ hk _; omega
  | succ k ih =>
      intro attempt maxR hm _ hop
      have hlt : attempt < maxR := by omega
      have hopa : op attempt = none := hop attempt hlt
      rw [retryGo]
      simp only [hlt, dif_pos, hopa]
      by_cases hk : k = 0
      · subst hk
        have : ¬ attempt < maxR - 1 := by omega
        simp [this]
      · have hlast : attempt < maxR - 1 := by omega
        have hrec := ih (attempt + 1) maxR (by omega) (by omega) hop
        simp only [hlast, if_pos, hrec]
        refine Prod.ext rfl (Prod.ext rfl ?_)
        simp only
        obtain ⟨m, rfl⟩ : ∃ m, k = m + 1 := ⟨k - 1, by omega⟩
        have h1 : 1 ≤ 2 ^ m := Nat.one_le_two_pow
        have h2 : 1 ≤ 2 ^ (m + 1) := Nat.one_le_two_pow
        simp only [Nat.add_sub_cancel]
        zify [h1, h2]
        ring

theorem retryGo_count_le {α : Type} (op : Nat → Option α) (delay : Nat) :
    ∀ (k attempt maxR : Nat), maxR ≤ attempt + k →
      (retryGo op delay maxR attempt).2.1 ≤ k := by
  intro k
  induction k with
  | zero =>
      intro attempt maxR hm
      have : ¬ attempt < maxR := by omega
      rw [retryGo]
      simp [this]
  | succ k ih =>
      intro attempt maxR hm
      rw [retryGo]
      by_cases hlt : attempt < maxR
      · simp only [hlt, dif_pos]
        cases hop : op attempt with
        | some v => simp
        | none =>
            by_cases hlast : attempt < maxR - 1
            · simp only [hlast, if_pos]
              have := ih (attempt + 1) maxR (by omega)
              simpa using this
            · simp [hlast]
      · simp [hlt]

/-- C3: for every wrapped operation and `max_retries >= 1`, if every
invocation raises then `_retry_request` invokes the operation exactly
`max_retries` times, sleeps the sum of `retry_delay * 2^i` for
`i = 0 .. max_retries - 2` (no sleep after the final attempt), and returns
the no-result sentinel; and for every operation the number of invocations
is at most `max_retries`. -/
theorem retry_bound_and_sleep {α : Type} (op : Nat → Option α)
    (delay maxR : Nat) (h1 : 1 ≤ maxR) (hfail : ∀ i, i < maxR → op i = none) :
    retryRequest op delay maxR =
      (none, maxR, ∑ i in Finset.range (maxR - 1), delay * 2 ^ i)
    ∧ ∀ (op2 : Nat → Option α), (retryRequest op2 delay maxR).2.1 ≤ maxR := by
  constructor
  · have hall := retryGo_allFail op delay maxR 0 maxR (by omega) h1 hfail
    rw [retryRequest, hall, geomSumTwoPow]
    simp
  · intro op2
    exact retryGo_count_le op2 delay maxR 0 maxR (by omega)

/-- Witness for C3 at `max_retries = 3`, `retry_delay = 1`, an operation
that always raises. -/
theorem retry_bound_and_sleep_witness :
    retryRequest (fun _ => (none : Option Nat)) 1 3 =
      (none, 3, ∑ i in Finset.range (3 - 1), 1 * 2 ^ i)
    ∧ ∀ (op2 : Nat → Option Nat), (retryRequest op2 1 3).2.1 ≤ 3 :=
  retry_bound_and_sleep (fun _ => none) 1 3 (by decide) (fun _ _ => rfl)

/-- C6: a `get(k)` at time `t` after `set(k, v)` at time `t0 <= t` returns
`v` exactly when `t - t0 < ttl`; once `t - t0 >= ttl` it returns the
absent sentinel and removes the stale entry from the cache. -/
theorem cache_ttl_get {α : Type} (c : Cache α) (k : String) (v : α)
    (t0 t ttl : Nat) (ht : t0 ≤ t) :
    ((getCached ttl t (setCache t0 c k v) k).1 = some v ↔ t - t0 < ttl)
    ∧ (ttl ≤ t - t0 →
        (getCached ttl t (setCache t0 c k v) k).1 = none ∧
        (getCached ttl t (setCache t0 c k v) k).2 k = none) := by
  by_cases hlt : t - t0 < ttl
  · refine ⟨?_, ?_⟩
    · simp [getCached, setCache, hlt]
    · intro hge; omega
  · refine ⟨?_, ?_⟩
    · simp [getCached, setCache, hlt]
    · intro _
      refine ⟨?_, ?_⟩ <;> simp [getCached, setCache, hlt]

/-- Witness for C6 with a fresh entry: key set at time 0, read at time 10,
ttl 300. -/
theorem cache_ttl_get_witness :
    ((getCached 300 10 (setCache 0 (Cache.emptyC : Cache Nat) "k" 5) "k").1
        = some 5 ↔ 10 - 0 < 300)
    ∧ (300 ≤ 10 - 0 →
        (getCached 300 10 (setCache 0 (Cache.emptyC : Cache Nat) "k" 5) "k").1
            = none ∧
        (getCached 300 10 (setCache 0 (Cache.emptyC : Cache Nat) "k" 5) "k").2 "k"
            = none) :=
  cache_ttl_get Cache.emptyC "k" 5 0 10 300 (by omega)

/-- C7: `invalidate(p)` removes exactly the keys containing `p` as a
substring and leaves every other key (value and timestamp) unchanged;
`invalidate(nil)` empties the cache. -/
theorem cache_invalidate_scope {α : Type} (c : Cache α) (p k : String) :
    invalidateCache c (some p) k = (if strContains k p then none else c k)
    ∧ invalidateCache c none k = none := by
  refine ⟨?_, rfl⟩
  by_cases hp : p == ""
  · have hp' : p = "" := by simpa using hp
    subst hp'
    simp [invalidateCache, strContains, hasSub_nil]
  · simp [invalidateCache, hp]

/-- C8: `build()` joins the accumulated clauses with " and " and returns
the none sentinel when no clause was added; free text gets its single
quotes escaped, so the scenario query `in_parents("F"); not_trashed();
name_contains("a" + quote + "s file")` builds the expected filter string,
which contains an escaped quote, the parent clause and the not-trashed
clause. -/
theorem query_builder_build :
    (∀ conds, qBuild conds =
      if conds.isEmpty then none else some (String.intercalate " and " conds))
    ∧ qBuild (qNameContains (qNotTrashed (qInParents [] "F")) c8Input)
        = some c8Expected
    ∧ strContains c8Expected (String.mk ['\\', quoteC]) = true
    ∧ strContains c8Expected (quoteS ++ "F" ++ quoteS ++ " in parents") = true
    ∧ strContains c8Expected "trashed=false" = true
    ∧ strContains c8Expected " and " = true := by
  refine ⟨fun conds => rfl, by decide, by decide, by decide, by decide, by decide⟩

/-- C9: `resolveLink` extracts the id from a folder link via the fixed URL
patterns; a bare token longer than 20 characters with no slash that
matches no pattern is accepted as a literal id and its metadata fetched;
an input matching no pattern and failing the bare-token test, or one whose
metadata fetch returns nothing, yields the pair of nones. -/
theorem resolve_link_spec (getInfo : String → Option FileMeta) :
    (extractIdFromUrl c9FolderLink = some "ABC123")
    ∧ (∀ url : String, 20 < url.length → url.toList.contains '/' = false →
        searchLit foldersLit url.toList = none →
        searchLit fileLit url.toList = none →
        searchIdParam url.toList = none →
        extractIdFromUrl url = some url)
    ∧ (∀ url, extractIdFromUrl url = none →
        resolveDriveLink getInfo url = (none, none))
    ∧ (∀ url fid, extractIdFromUrl url = some fid → getInfo fid = none →
        resolveDriveLink getInfo url = (none, none))
    ∧ (∀ url fid m, extractIdFromUrl url = some fid → getInfo fid = some m →
        resolveDriveLink getInfo url = (some fid, some m)) := by
  refine ⟨by decide, ?_, ?_, ?_, ?_⟩
  · intro url hlen hslash hf1 hf2 hf3
    have hmem : '/' ∉ url.data := by simpa using hslash
    have hg1 : searchLit foldersLit url.data = none := hf1
    have hg2 : searchLit fileLit url.data = none := hf2
    have hg3 : searchIdParam url.data = none := hf3
    simp [extractIdFromUrl, hg1, hg2, hg3, hlen, hmem]
  · intro url hext
    simp [resolveDriveLink, hext]
  · intro url fid hext hinfo
    simp [resolveDriveLink, hext, hinfo]
  · intro url fid m hext hinfo
    simp [resolveDriveLink, hext, hinfo]

/-- Witness for C9: a 25-character bare token with no slash is taken as a
literal id, and a short unparseable string resolves to the pair of nones. -/
theorem resolve_link_spec_witness :
    extractIdFromUrl "ABCDEFGHIJKLMNOPQRSTUVWXY" = some "ABCDEFGHIJKLMNOPQRSTUVWXY"
    ∧ resolveDriveLink (fun _ => none) "abc" = (none, none) :=
  ⟨(resolve_link_spec (fun _ => none)).2.1 "ABCDEFGHIJKLMNOPQRSTUVWXY"
      (by decide) (by decide) (by decide) (by decide) (by decide),
   (resolve_link_spec (fun _ => none)).2.2.1 "abc" (by decide)⟩

/-- C10: for every query text and folder id, when the underlying retried
list request produces the no-result sentinel, `search_files` returns the
empty list while `list_files` returns the none sentinel in the same
situation. -/
theorem search_empty_vs_list_none (ttl now : Nat) (c : Cache Payload)
    (qt : String) (fid : Option String) (folderId : String) (ps : Nat)
    (tok : Option String) :
    (searchFiles ttl now c qt fid false none).1 = []
    ∧ (listFiles ttl now c folderId ps tok false none).1 = none :=
  ⟨rfl, rfl⟩

/-- C2: evaluation of `move_file` at the failing input.  Moving file X
from folder A to folder B succeeds and invalidates the cached page of B,
but the parents are re-read only after the update, so the pre-move parent
A is never invalidated: A's cached page survives and a subsequent
`list_files(A)` is served from the stale pre-move cache instead of being
re-fetched, while `list_files(B)` is re-fetched from the backend. -/
theorem move_file_stale_parent_eval :
    (moveFile 300 0 c2Cache [c2FileX] "X1" "B" true).1 = some c2FileXMoved
    ∧ (moveFile 300 0 c2Cache [c2FileX] "X1" "B" true).2.1
        (listKey "B" 100 none) = none
    ∧ (moveFile 300 0 c2Cache [c2FileX] "X1" "B" true).2.1
        (listKey "A" 100 none) = some (c2PageA, 0)
    ∧ (listFiles 300 1
        (moveFile 300 0 c2Cache [c2FileX] "X1" "B" true).2.1
        "A" 100 none true (some ([], none))).1 = some ([c2FileX], none)
    ∧ (listFiles 300 1
        (moveFile 300 0 c2Cache [c2FileX] "X1" "B" true).2.1
        "B" 100 none true (some ([c2FileXMoved], none))).1
        = some ([c2FileXMoved], none) := by
  refine ⟨by decide, by decide, by decide, by decide, by decide⟩

theorem saveDM_fields {α : Type} (dm : DMState α) (srv : RServer)
    (fn : String) (d : α) (u1 u2 : Bool) :
    (saveDM dm srv fn d u1 u2).1.localData = some d
    ∧ (saveDM dm srv fn d u1 u2).1.hasDrive = dm.hasDrive
    ∧ (saveDM dm srv fn d u1 u2).1.lmsRootId = dm.lmsRootId := by
  simp only [saveDM, save_json_file]
  repeat' split
  all_goals exact ⟨rfl, rfl, rfl⟩

/-- C1: with a remote client and root folder configured, `load` resolves
(or reuses the cached) remote file id by name lookup in the root folder
and remembers it; when a remote file is found and its content downloads
and parses, the parsed documents are returned; only on failure — no
remote file found, failed or empty download, or parse error — does it
fall through silently to the local JSON file, whose absence or
unparsability yields the default. -/
theorem load_prefers_drive {α : Type} (dm : DMState α) (env : RemoteEnv α)
    (fn : String) (default : α)
    (hd : dm.hasDrive = true) (hr : dm.lmsRootId.isSome = true) :
    ((loadDM dm env fn default).2.binding = resolveFid dm env fn)
    ∧ (∀ i, dm.binding = some i → ∀ env2 : RemoteEnv α,
        env2.download = env.download → env2.parse = env.parse →
        loadDM dm env2 fn default = loadDM dm env fn default)
    ∧ (∀ i c d, resolveFid dm env fn = some i → env.download i = some c →
        (c == "") = false → env.parse c = some d →
        (loadDM dm env fn default).1 = d)
    ∧ (resolveFid dm env fn = none →
        (loadDM dm env fn default).1 = load_json_file dm.localData default)
    ∧ (∀ i, resolveFid dm env fn = some i → env.download i = none →
        (loadDM dm env fn default).1 = load_json_file dm.localData default)
    ∧ (∀ i c, resolveFid dm env fn = some i → env.download i = some c →
        (c = "" ∨ env.parse c = none) →
        (loadDM dm env fn default).1 = load_json_file dm.localData default) := by
  have hg : (dm.hasDrive && dm.lmsRootId.isSome) = true := by
    simp [hd, hr]
  refine ⟨?_, ?_, ?_, ?_, ?_, ?_⟩
  · simp [loadDM, hg]
  · intro i hb env2 hdl hp
    simp [loadDM, hg, resolveFid, hb, hdl, hp]
  · intro i c d hfid hdl hc hp
    simp [loadDM, hg, hfid, hdl, hc, hp]
  · intro hfid
    simp [loadDM, hg, hfid]
  · intro i hfid hdl
    simp [loadDM, hg, hfid, hdl]
  · intro i c hfid hdl hcp
    rcases hcp with hc | hp
    · subst hc
      simp [loadDM, hg, hfid, hdl]
    · by_cases hc : c == ""
      · simp [loadDM, hg, hfid, hdl, hc]
      · simp [loadDM, hg, hfid, hdl, hc, hp]

/-- C4: after `save(d)` on a store whose remote client is nil (or not
rooted) or whose every remote-mirror step fails, the local file holds
exactly `d` — the local write happens first and remote failures never
undo it — and a subsequent `load` returns exactly `d`, sourced from the
local JSON file. -/
theorem save_then_load_local {α : Type} (dm : DMState α) (srv : RServer)
    (fn : String) (d default : α) (env : RemoteEnv α) (updOk upOk : Bool)
    (hfail : (dm.hasDrive = false ∨ dm.lmsRootId = none)
      ∨ (updOk = false ∧ upOk = false ∧ ∀ i, env.download i = none)) :
    (saveDM dm srv fn d updOk upOk).1.localData = some d
    ∧ (loadDM (saveDM dm srv fn d updOk upOk).1 env fn default).1 = d := by
  have hf := saveDM_fields dm srv fn d updOk upOk
  refine ⟨hf.1, ?_⟩
  by_cases hg : ((saveDM dm srv fn d updOk upOk).1.hasDrive
      && (saveDM dm srv fn d updOk upOk).1.lmsRootId.isSome) = true
  · rcases hfail with hoff | ⟨_, _, hdl⟩
    · exfalso
      rcases hoff with h | h
      · rw [hf.2.1, h] at hg; simp at hg
      · rw [hf.2.2, h] at hg; simp at hg
    · cases hfid : resolveFid (saveDM dm srv fn d updOk upOk).1 env fn with
      | none => simp [loadDM, hg, hfid, load_json_file, hf.1]
      | some i => simp [loadDM, hg, hfid, hdl i, load_json_file, hf.1]
  · have hg' : ((saveDM dm srv fn d updOk upOk).1.hasDrive
        && (saveDM dm srv fn d updOk upOk).1.lmsRootId.isSome) = false := by
      revert hg; cases ((saveDM dm srv fn d updOk upOk).1.hasDrive
        && (saveDM dm srv fn d updOk upOk).1.lmsRootId.isSome) <;> simp
    simp [loadDM, hg', load_json_file, hf.1]

/-- C5: on a store with remote configured whose binding is stale (or not
yet bound) and with no remote file of the collection's name, the first
save detects the failed update, clears the stale binding, uploads the
documents as a new remote file under the root folder and rebinds the
returned id; the second save then updates in place, so two saves in a row
leave exactly one remote file for the collection. -/
theorem save_rebind_no_duplicate {α : Type} (dm : DMState α) (srv : RServer)
    (fn : String) (d1 d2 : α) (root : String)
    (hd : dm.hasDrive = true) (hr : dm.lmsRootId = some root)
    (hstale : ∀ i, dm.binding = some i →
      srv.files.any (fun f => f.id == i) = false)
    (hcount : srv.files.countP (fun f => f.name == fn) = 0) :
    (saveDM dm srv fn d1 true true).1.binding
        = some ("gen" ++ toString srv.counter)
    ∧ (saveDM dm srv fn d1 true true).2.files
        = srv.files ++ [⟨"gen" ++ toString srv.counter, fn,
            "application/json", [root]⟩]
    ∧ (saveDM (saveDM dm srv fn d1 true true).1
        (saveDM dm srv fn d1 true true).2 fn d2 true true).2.files
        = (saveDM dm srv fn d1 true true).2.files
    ∧ (saveDM (saveDM dm srv fn d1 true true).1
        (saveDM dm srv fn d1 true true).2 fn d2 true true).2.files.countP
          (fun f => f.name == fn) = 1
    ∧ (saveDM (saveDM dm srv fn d1 true true).1
        (saveDM dm srv fn d1 true true).2 fn d2 true true).1.binding
        = some ("gen" ++ toString srv.counter) := by
  obtain ⟨hasD, rootId, bndg, locD⟩ := dm
  obtain ⟨sfiles, scnt⟩ := srv
  simp only at hd hr hstale hcount
  subst hd hr
  have hstep1 : saveDM (DMState.mk true (some root) bndg locD)
      (RServer.mk sfiles scnt) fn d1 true true
      = (DMState.mk true (some root) (some ("gen" ++ toString scnt)) (some d1),
         RServer.mk (sfiles ++ [⟨"gen" ++ toString scnt, fn,
           "application/json", [root]⟩]) (scnt + 1)) := by
    cases hb : bndg with
    | none => simp [saveDM, save_json_file, uploadNew]
    | some i =>
        have hs := hstale i (by rw [hb])
        simp [saveDM, save_json_file, uploadNew, hs]
  have hstep2 : saveDM (DMState.mk true (some root)
        (some ("gen" ++ toString scnt)) (some d1))
      (RServer.mk (sfiles ++ [⟨"gen" ++ toString scnt, fn,
        "application/json", [root]⟩]) (scnt + 1)) fn d2 true true
      = (DMState.mk true (some root) (some ("gen" ++ toString scnt)) (some d2),
         RServer.mk (sfiles ++ [⟨"gen" ++ toString scnt, fn,
           "application/json", [root]⟩]) (scnt + 1)) := by
    have hany : ((sfiles ++ [(⟨"gen" ++ toString scnt, fn,
        "application/json", [root]⟩ : FileMeta)]).any
          (fun f => f.id == ("gen" ++ toString scnt))) = true := by
      simp
    simp [saveDM, save_json_file, hany]
  rw [hstep1]
  simp only [hstep2]
  refine ⟨trivial, trivial, trivial, ?_, trivial⟩
  simp [List.countP_append, hcount, List.countP_cons]

/-- Witness for C1: with a cached binding whose download and parse
succeed, load returns the parsed remote documents. -/
theorem load_prefers_drive_witness :
    (loadDM dmC1 envC1 "assignments.json" ([] : List Nat)).1 = [3] :=
  (load_prefers_drive dmC1 envC1 "assignments.json" [] rfl rfl).2.2.1
    "F1" "ok" [3] (by decide) (by decide) (by decide) (by decide)

/-- Witness for C4: save then load on a store without remote returns the
saved documents from the local file. -/
theorem save_then_load_local_witness :
    (saveDM dmC4 ⟨[], 0⟩ "students.json" 7 false false).1.localData = some 7
    ∧ (loadDM (saveDM dmC4 ⟨[], 0⟩ "students.json" 7 false false).1 envC4
        "students.json" 0).1 = 7 :=
  save_then_load_local dmC4 ⟨[], 0⟩ "students.json" 7 0 envC4 false false
    (Or.inl (Or.inl rfl))

/-- Witness for C5: two saves starting from a stale binding and an empty
root folder leave exactly one remote file named like the collection. -/
theorem save_rebind_no_duplicate_witness :
    (saveDM dmC5 ⟨[], 0⟩ "a.json" 1 true true).1.binding
        = some ("gen" ++ toString (0 : Nat))
    ∧ (saveDM dmC5 ⟨[], 0⟩ "a.json" 1 true true).2.files
        = [] ++ [⟨"gen" ++ toString (0 : Nat), "a.json",
            "application/json", ["R"]⟩]
    ∧ (saveDM (saveDM dmC5 ⟨[], 0⟩ "a.json" 1 true true).1
        (saveDM dmC5 ⟨[], 0⟩ "a.json" 1 true true).2 "a.json" 2 true true).2.files
        = (saveDM dmC5 ⟨[], 0⟩ "a.json" 1 true true).2.files
    ∧ (saveDM (saveDM dmC5 ⟨[], 0⟩ "a.json" 1 true true).1
        (saveDM dmC5 ⟨[], 0⟩ "a.json" 1 true true).2 "a.json" 2 true true).2.files.countP
          (fun f => f.name == "a.json") = 1
    ∧ (saveDM (saveDM dmC5 ⟨[], 0⟩ "a.json" 1 true true).1
        (saveDM dmC5 ⟨[], 0⟩ "a.json" 1 true true).2 "a.json" 2 true true).1.binding
        = some ("gen" ++ toString (0 : Nat)) :=
  save_rebind_no_duplicate dmC5 ⟨[], 0⟩ "a.json" 1 2 "R" rfl rfl
    (fun _ _ => rfl) rfl
